import Mathlib

/-!
Shallow embedding of the prop-bot projection and market pipeline
(src/bot.py, src/injuries.py, src/minutes_model.py, src/odds_tracker.py,
src/team_ratings.py, src/main_pipeline.py), with theorems settling the
frozen claims about it.

Conventions of the embedding:
* Python floats are modelled as exact rationals (ℚ); the quantities the
  claims touch are arithmetically exact on the code paths involved.
* Where a float can be NaN and the NaN-ness drives the control flow
  (the game-total standard-deviation fallback of main_pipeline.py),
  definedness is tracked with Option: none stands for NaN.
* Pandas data frames are lists of structure rows in frame order.
* Fallible Python values (None, failed int conversion) are Option.
-/

namespace PropBot

/-- A row of the raw box-score frame (spec §3 BoxScoreRow; the schema of
`box_df` consumed by minutes_model.py and main_pipeline.py).  Dates are
modelled as integers: only their ordering is used. -/
structure BoxScoreRow where
  game_date : ℤ
  player_id : ℤ
  player_name : String
  team : String
  pos : String
  minutes : ℚ
  pts : ℚ
  team_pts : ℚ
deriving DecidableEq

/-- A row of a minutes-projection frame, the shape produced by
minutes_model.calculate_projected_minutes and consumed by
injuries.redistribute_minutes (columns player_id, name, team, pos, proj_min). -/
structure ProjRow where
  player_id : ℤ
  name : String
  team : String
  pos : String
  proj_min : ℚ
deriving DecidableEq

/-- One injury-feed entry as read by injuries.redistribute_minutes:
a dict with keys player_id, status, and an optional probability
(`inj.get ("probability", 1.0)` supplies 1.0 when the key is missing,
which the Option models as none). -/
structure InjuryEntry where
  player_id : ℤ
  status : String
  probability : Option ℚ
deriving DecidableEq

-- ====================================================================
-- injuries.py
-- ====================================================================

/-- The body of the `for inj in injury_feed` loop of
injuries.redistribute_minutes (injuries.py lines 14-29), applied to one
projection row: rows whose player_id differs from that of the entry are
untouched (`if pid not in proj.index: continue` together with the
keyed `.at` writes); status OUT zeroes proj_min; status QUESTIONABLE
multiplies proj_min by `inj.get ("probability", 1.0)`; any other status
leaves the row as it is. -/
def apply_injury (inj : InjuryEntry) (r : ProjRow) : ProjRow :=
  if r.player_id = inj.player_id then
    if inj.status = "OUT" then { r with proj_min := 0 }
    else if inj.status = "QUESTIONABLE" then
      { r with proj_min := r.proj_min * inj.probability.getD 1 }
    else r
  else r

/-- injuries.redistribute_minutes (injuries.py lines 4-33): sequentially
applies every injury-feed entry to the projection frame and returns the
adjusted frame.  The Python function also receives `box_df` and
`team_code` but never reads them; the `set_index`/`reset_index` pair
only moves the player_id column and leaves row order and content alone.
Rows are assumed keyed by player_id as the schema states (one row per
player), which is what the `.at [pid, col]` writes require. -/
def redistribute_minutes (proj_df : List ProjRow) (box_df : List BoxScoreRow)
    (injury_feed : List InjuryEntry) (team_code : String) : List ProjRow :=
  injury_feed.foldl (fun p inj => p.map (apply_injury inj)) proj_df

-- ====================================================================
-- odds_tracker.py
-- ====================================================================

/-- One row of the odds_snapshots table (odds_tracker.py ensure_db);
compute_line_drift only reads line_value, the remaining identifying
columns are carried for the record.  Timestamps are modelled as the
position in the (timestamp-ordered) list load_snapshots returns. -/
structure Snapshot where
  game_id : String
  bookmaker : String
  market_type : String
  line_value : ℚ
  odds_american : ℤ
deriving DecidableEq

/-- The record compute_line_drift returns: open, current, drift and
pct_change (`open` is a Lean keyword, hence the trailing underscore). -/
structure LineDrift where
  open_ : ℚ
  current : ℚ
  drift : ℚ
  pct_change : ℚ
deriving DecidableEq

/-- odds_tracker.compute_line_drift (odds_tracker.py lines 45-52):
None on an empty frame; otherwise open is the line_value of the first
row, current that of the last row, drift their difference, and pct_change is
drift/open guarded to 0.0 when open is 0. -/
def compute_line_drift : List Snapshot → Option LineDrift
  | [] => none
  | s :: rest =>
    let first := s.line_value
    let last := ((s :: rest).getLast (List.cons_ne_nil s rest)).line_value
    let drift := last - first
    let pct := if first ≠ 0 then drift / first else 0
    some { open_ := first, current := last, drift := drift, pct_change := pct }

-- ====================================================================
-- bot.py: odds conversion, EV, recommendation policy
-- ====================================================================

/-- bot.american_to_decimal (bot.py lines 43-53).  The Python argument
may be None, or a value `int` accepts or rejects; the embedding takes
the outcome of that conversion attempt as input: none is a None
argument, some none an argument `int` rejects, and some (some o) an
argument converting to the integer o. -/
def american_to_decimal : Option (Option ℤ) → Option ℚ
  | none => none
  | some none => none
  | some (some o) =>
    if o < 0 then some (1 + 100 / (o.natAbs : ℚ))
    else some (1 + (o : ℚ) / 100)

/-- bot.expected_value_percent (bot.py lines 55-59): None propagates,
otherwise (prob * decimal - 1) * 100. -/
def expected_value_percent (prob : ℚ) : Option ℚ → Option ℚ
  | none => none
  | some d => some ((prob * d - 1) * 100)

/-- The six recommendation outcomes the recommendation block of
bot.build_prop_embed can produce (bot.py lines 297-318), identified by
the message each branch formats. -/
inductive Rec where
  /-- Branch message: No recommendation (no valid book odds). -/
  | noValidOdds
  /-- Branch message: OVER looks good (+ev% EV), the interpolated EV
  written as ev. -/
  | overGood
  /-- Branch message: UNDER looks good (+ev% EV). -/
  | underGood
  /-- Branch message: Best side: OVER (ev% EV, not positive). -/
  | bestOver
  /-- Branch message: Best side: UNDER (ev% EV, not positive). -/
  | bestUnder
  /-- Branch message: No strong edge detected. -/
  | noEdge
deriving DecidableEq

/-- The recommendation block of bot.build_prop_embed (bot.py lines
297-318) as a function of the two EV figures (ev_over, ev_under), each
None when that side has no valid book odds. -/
def recommendation : Option ℚ → Option ℚ → Rec
  | none, none => .noValidOdds
  | some eo, some eu =>
    if eo > eu ∧ eo > 0 then .overGood
    else if eu > eo ∧ eu > 0 then .underGood
    else if eo ≥ eu then .bestOver
    else .bestUnder
  | some eo, none => if eo > 0 then .overGood else .noEdge
  | none, some eu => if eu > 0 then .underGood else .noEdge

-- ====================================================================
-- minutes_model.py
-- ====================================================================

/-- The `sort_values ("game_date")` step of
minutes_model.calculate_projected_minutes: a merge sort on the date
column.  (The pandas default sort is not stable, so the order of rows
sharing a date is unspecified there; every quantity the claims touch —
per-player row counts, membership, and rolling values of players with
fewer than ten rows — is the same under any date-respecting order.) -/
def sortByDate (box : List BoxScoreRow) : List BoxScoreRow :=
  box.mergeSort (fun a b => decide (a.game_date ≤ b.game_date))

/-- The distinct player_ids of the frame, ordered by the last row of each
player in date order — the order in which `groupby ("player_id").tail (1)`
keeps one row per player (minutes_model.py lines 25-29).  (dedup keeps
the last occurrence of each duplicate in place, which is that order.) -/
def pidsByLastGame (box : List BoxScoreRow) : List ℤ :=
  ((sortByDate box).map (·.player_id)).dedup

/-- The date-ordered rows of one player, as `groupby ("player_id")`
partitions the sorted frame. -/
def playerRowsSorted (box : List BoxScoreRow) (pid : ℤ) : List BoxScoreRow :=
  (sortByDate box).filter (fun r => decide (r.player_id = pid))

/-- Rounding half to even at integer precision, the rule numpy (and so
`Series.round`) applies. -/
def roundHalfEven (q : ℚ) : ℤ :=
  if q - ⌊q⌋ < 1 / 2 then ⌊q⌋
  else if 1 / 2 < q - ⌊q⌋ then ⌊q⌋ + 1
  else if ⌊q⌋ % 2 = 0 then ⌊q⌋ else ⌊q⌋ + 1

/-- `Series.round (1)`: round half to even at one decimal place
(minutes_model.py line 43). -/
def round1 (q : ℚ) : ℚ := (roundHalfEven (10 * q) : ℚ) / 10

/-- The last value of `rolling (window := 10).mean ()` over the date-ordered
minutes of one player (minutes_model.py lines 13-20): with an integer
window of 10, min_periods defaults to 10, so the value is NaN (none)
until the player has ten rows, and otherwise the mean of the last ten. -/
def rollingLast (mins : List ℚ) : Option ℚ :=
  if mins.length < 10 then none
  else some ((mins.drop (mins.length - 10)).sum / 10)

/-- minutes_model.calculate_projected_minutes (minutes_model.py lines
4-45): one output row per player appearing in the frame, carrying the
identity columns of the latest row of that player, with proj_min the last
rolling value, NaN filled with 20 (`fillna (20)`, line 40) and rounded
to one decimal (line 43). -/
def calculate_projected_minutes (box : List BoxScoreRow) : List ProjRow :=
  (pidsByLastGame box).filterMap (fun pid =>
    ((playerRowsSorted box pid).getLast?).map (fun last =>
      { player_id := pid
        name := last.player_name
        team := last.team
        pos := last.pos
        proj_min :=
          round1 ((rollingLast ((playerRowsSorted box pid).map (·.minutes))).getD 20) }))

-- ====================================================================
-- team_ratings.py
-- ====================================================================

/-- One row of the team-game frame handed to
team_ratings.estimate_team_ratings (spec §3 TeamGameAggregate). -/
structure TeamGameRow where
  team : String
  game_date : ℤ
  team_pts : ℚ
  fga : ℚ
  fta : ℚ
  oreb : ℚ
  tov : ℚ
deriving DecidableEq

/-- Pandas column mean: sum over length.  Every use below is on a
nonempty group, where the pandas value is the same rational. -/
def mean (l : List ℚ) : ℚ := l.sum / l.length

/-- The possession estimate `poss = fga + 0.4 * fta - oreb + tov`
(team_ratings.py line 9). -/
def possOf (r : TeamGameRow) : ℚ := r.fga + 0.4 * r.fta - r.oreb + r.tov

/-- The group keys of `groupby ("team")` (team_ratings.py line 12).
Pandas sorts the keys; dedup keeps them in occurrence order instead,
which changes nothing any claim can observe (the league average below
is over the same multiset of distinct teams). -/
def teamsOf (df : List TeamGameRow) : List String := (df.map (·.team)).dedup

/-- The rows of the group of one team. -/
def teamRowsOf (df : List TeamGameRow) (t : String) : List TeamGameRow :=
  df.filter (fun r => decide (r.team = t))

/-- OffPts of a team: mean of its team_pts (team_ratings.py line 14). -/
def offPtsOf (df : List TeamGameRow) (t : String) : ℚ :=
  mean ((teamRowsOf df t).map (·.team_pts))

/-- Poss of a team: mean of its possession estimates (line 15). -/
def possAvgOf (df : List TeamGameRow) (t : String) : ℚ :=
  mean ((teamRowsOf df t).map possOf)

/-- OffRtg = OffPts / (Poss / 100) (team_ratings.py line 20).  (The ℚ
convention 0-division = 0 replaces the float infinity pandas would emit
on a zero Poss; no claim divides by zero.) -/
def offRtgOf (df : List TeamGameRow) (t : String) : ℚ :=
  offPtsOf df t / (possAvgOf df t / 100)

/-- The league-average OffRtg, the mean over the per-team column
(team_ratings.py line 21). -/
def leagueAvgOffRtg (df : List TeamGameRow) : ℚ :=
  mean ((teamsOf df).map (offRtgOf df))

/-- One output row of estimate_team_ratings. -/
structure TeamRating where
  team : String
  OffRtg : ℚ
  DefRtg : ℚ
  Poss : ℚ
deriving DecidableEq

/-- team_ratings.estimate_team_ratings (team_ratings.py lines 4-25):
per team the mean points and mean possessions, OffRtg as points per
100 possessions, and DefRtg = 100 + (league average OffRtg - OffRtg). -/
def estimate_team_ratings (df : List TeamGameRow) : List TeamRating :=
  (teamsOf df).map (fun t =>
    { team := t
      OffRtg := offRtgOf df t
      DefRtg := 100 + (leagueAvgOffRtg df - offRtgOf df t)
      Poss := possAvgOf df t })

/-- Team label fixture used by concrete team-rating instances. -/
def teamA : String := "A"

/-- Team label fixture used by concrete team-rating instances. -/
def teamB : String := "B"

/-- A two-team fixture frame: identical points and identical
shot-attempt inputs, hence identical possessions, for the two teams. -/
def dfC8 : List TeamGameRow :=
  [⟨teamA, 0, 110, 85, 20, 10, 12⟩, ⟨teamB, 0, 110, 85, 20, 10, 12⟩]

-- ====================================================================
-- main_pipeline.py: the Normal game-total standard deviation
-- ====================================================================

/-- The group keys of `box_df.groupby (["game_date", "team"])`
(main_pipeline.py line 190); as for teamsOf, key order is immaterial
to the std computed from the grouped means. -/
def teamGameKeys (box : List BoxScoreRow) : List (ℤ × String) :=
  (box.map (fun r => (r.game_date, r.team))).dedup

/-- `box_df.groupby (["game_date", "team"]) ["team_pts"].mean ()`
(main_pipeline.py lines 189-191): the per-(date, team) means of
team_pts, the sample the game-total std is estimated from. -/
def teamPtsPerTeamGame (box : List BoxScoreRow) : List ℚ :=
  (teamGameKeys box).map (fun k =>
    mean ((box.filter (fun r =>
      decide (r.game_date = k.1 ∧ r.team = k.2))).map (·.team_pts)))

/-- The sample variance with ddof = 1, the square of what pandas
`Series.std ()` returns on a sample of at least two values. -/
def sampleVar (xs : List ℚ) : ℚ :=
  (xs.map (fun x => (x - mean xs) ^ 2)).sum / ((xs.length : ℚ) - 1)

/-- pandas `Series.std ()` with its default ddof = 1 (main_pipeline.py
line 192), represented by its square to stay in ℚ: none is the NaN the
method returns on samples of fewer than two values, some v says the
std is the nonnegative square root of v.  The pipeline only multiplies
this std by √2, tests its truthiness and sign, and divides by the
product, and on squares: std = 0 iff v = 0 and std > 0 iff v > 0, so
nothing observable is lost. -/
def stdSq (xs : List ℚ) : Option ℚ :=
  if xs.length < 2 then none else some (sampleVar xs)

/-- main_pipeline.py lines 192-199 on squares:
  team_std = float (team_pts_per_team_game ["team_pts"].std () or 9.0)
  game_std = (2.0 ** 0.5) * team_std
  if game_std <= 0: game_std = 9.0
In Python, NaN is truthy, so `or 9.0` keeps a NaN std, and NaN <= 0 is
False, so the guard keeps it too: an undefined std flows through both
fallbacks untouched (none here).  A zero std is falsy and becomes 9.0,
after which game_std = √2 * 9 > 0 and the guard is a no-op; likewise
for a positive std.  So the result is none for a NaN game_std and
otherwise the square 2 * team_std² of a positive game_std. -/
def gameStdSq (xs : List ℚ) : Option ℚ :=
  match stdSq xs with
  | none => none
  | some v => some (2 * (if v = 0 then 81 else v))

/-- Whether p_over of main_pipeline.run_full_model is NaN
(main_pipeline.py lines 200-201): z = (book_total - proj_game_total) /
game_std and p_over = 1 - norm.cdf (z).  book_total and the projected
total are finite floats, the scipy normal CDF maps finite arguments into
[0, 1] and NaN to NaN, so p_over is NaN exactly when game_std is. -/
def pOverIsNaN (box : List BoxScoreRow) : Bool :=
  (gameStdSq (teamPtsPerTeamGame box)).isNone

-- ====================================================================
-- bot.py: Poisson prop model
-- ====================================================================

/-- bot.poisson_p (bot.py lines 26-27): exp (-λ) λ^k / k!. -/
noncomputable def poisson_p (k : ℕ) (lam : ℝ) : ℝ :=
  Real.exp (-lam) * lam ^ k / (k.factorial : ℝ)

/-- bot.poisson_cdf (bot.py lines 29-33): the sum of poisson_p over
`range (0, k + 1)`.  k comes in as threshold - 1 and may be negative,
in which case the Python range is empty and the sum is 0.0, which
(k + 1).toNat = 0 reproduces. -/
noncomputable def poisson_cdf (k : ℤ) (lam : ℝ) : ℝ :=
  ((List.range (k + 1).toNat).map (fun i => poisson_p i lam)).sum

/-- bot.probability_over (bot.py lines 35-41): threshold = ⌈line⌉,
P (over) = 1 - poisson_cdf (threshold - 1, λ).  The prop line is a
float with an exact rational value. -/
noncomputable def probability_over (prop_line : ℚ) (expected_avg : ℝ) : ℝ :=
  1 - poisson_cdf (⌈prop_line⌉ - 1) expected_avg

-- ====================================================================
-- Helper lemmas
-- ====================================================================

/-- Pointwise description of Forall₂ against a mapped copy of a list. -/
theorem aux_forall₂_map_self {α β : Type} {R : α → β → Prop} {f : α → β} :
    ∀ {l : List α}, (∀ a ∈ l, R a (f a)) → List.Forall₂ R l (l.map f)
  | [], _ => List.Forall₂.nil
  | a :: l, h =>
    List.Forall₂.cons (h a (List.mem_cons_self a l))
      (aux_forall₂_map_self fun x hx => h x (List.mem_cons_of_mem a hx))

/-- redistribute_minutes is the row-wise left fold of the injury feed. -/
theorem aux_redistribute_eq_map (proj : List ProjRow) (box : List BoxScoreRow)
    (feed : List InjuryEntry) (tc : String) :
    redistribute_minutes proj box feed tc =
      proj.map (fun r => feed.foldl (fun s inj => apply_injury inj s) r) := by
  induction feed generalizing proj with
  | nil => simp [redistribute_minutes]
  | cons inj rest ih =>
    show redistribute_minutes (proj.map (apply_injury inj)) box rest tc = _
    rw [ih, List.map_map]
    rfl

/-- apply_injury can only touch the proj_min column. -/
theorem aux_apply_injury_fields (inj : InjuryEntry) (r : ProjRow) :
    (apply_injury inj r).player_id = r.player_id ∧
    (apply_injury inj r).name = r.name ∧
    (apply_injury inj r).team = r.team ∧
    (apply_injury inj r).pos = r.pos := by
  unfold apply_injury
  split <;> [skip; exact ⟨rfl, rfl, rfl, rfl⟩]
  split <;> [skip; split] <;> exact ⟨rfl, rfl, rfl, rfl⟩

/-- A whole injury feed can only touch the proj_min column. -/
theorem aux_fold_injury_fields (feed : List InjuryEntry) (r : ProjRow) :
    (feed.foldl (fun s inj => apply_injury inj s) r).player_id = r.player_id ∧
    (feed.foldl (fun s inj => apply_injury inj s) r).name = r.name ∧
    (feed.foldl (fun s inj => apply_injury inj s) r).team = r.team ∧
    (feed.foldl (fun s inj => apply_injury inj s) r).pos = r.pos := by
  induction feed generalizing r with
  | nil => exact ⟨rfl, rfl, rfl, rfl⟩
  | cons inj rest ih =>
    obtain ⟨h₁, h₂, h₃, h₄⟩ := aux_apply_injury_fields inj r
    obtain ⟨g₁, g₂, g₃, g₄⟩ := ih (apply_injury inj r)
    exact ⟨g₁.trans h₁, g₂.trans h₂, g₃.trans h₃, g₄.trans h₄⟩

/-- An entry for a different player leaves a row untouched. -/
theorem aux_apply_injury_other (inj : InjuryEntry) (r : ProjRow)
    (h : r.player_id ≠ inj.player_id) : apply_injury inj r = r := by
  unfold apply_injury
  exact if_neg h

/-- An entry whose status is neither OUT nor QUESTIONABLE leaves a row
untouched. -/
theorem aux_apply_injury_other_status (inj : InjuryEntry) (r : ProjRow)
    (h₁ : inj.status ≠ "OUT") (h₂ : inj.status ≠ "QUESTIONABLE") :
    apply_injury inj r = r := by
  unfold apply_injury
  split <;> simp [h₁, h₂]

-- ====================================================================
-- Claim theorems
-- ====================================================================

/-- C2 (counterexample): with both sides priced and both EV figures
equal to +5%, neither strict comparison of the recommendation block
holds, so bot.build_prop_embed falls to the caveat branch (Best side:
OVER, not positive)  instead of producing a positive recommendation —
refuting the claim that equal strictly positive EVs still yield one. -/
theorem C2_counterexample :
    (0 : ℚ) < 5 ∧
    recommendation (some 5) (some 5) = Rec.bestOver ∧
    Rec.bestOver ≠ Rec.overGood ∧ Rec.bestOver ≠ Rec.underGood := by
  decide

/-- C2 (amended): in bot.build_prop_embed with both sides priced, the
side with strictly higher EV is preferred and is reported as a positive
recommendation exactly when its EV is strictly positive, the
non-positive best side otherwise; when the two EVs are equal —
including equal and strictly positive — the OVER side is reported with
the non-positive caveat. -/
theorem C2_recommendation_policy (eo eu : ℚ) :
    (eu < eo → (recommendation (some eo) (some eu) = Rec.overGood ↔ 0 < eo)) ∧
    (eu < eo → eo ≤ 0 → recommendation (some eo) (some eu) = Rec.bestOver) ∧
    (eo < eu → (recommendation (some eo) (some eu) = Rec.underGood ↔ 0 < eu)) ∧
    (eo < eu → eu ≤ 0 → recommendation (some eo) (some eu) = Rec.bestUnder) ∧
    (eo = eu → recommendation (some eo) (some eu) = Rec.bestOver) := by
  have hrec : recommendation (some eo) (some eu) =
      if eo > eu ∧ eo > 0 then Rec.overGood
      else if eu > eo ∧ eu > 0 then Rec.underGood
      else if eo ≥ eu then Rec.bestOver else Rec.bestUnder := rfl
  refine ⟨fun h => ?_, fun h h0 => ?_, fun h => ?_, fun h h0 => ?_, fun h => ?_⟩ <;>
      rw [hrec] <;> split_ifs with h₁ h₂ h₃ <;> simp_all <;> linarith

/-- C2 (witness): a concrete strictly-higher positive EV pair, where the
policy does produce the positive OVER recommendation. -/
theorem C2_witness : recommendation (some 3) (some 1) = Rec.overGood :=
  ((C2_recommendation_policy 3 1).1 (by norm_num)).mpr (by norm_num)

/-- C5: odds_tracker.compute_line_drift returns none on an empty
snapshot sequence, and on any non-empty chronologically ordered
sequence returns open = first line_value, current = last line_value,
drift = current - open, and pct_change = drift / open guarded to 0 when
open is 0; on the two-snapshot sequence [229.5, 228.0] this is
{open 229.5, current 228, drift -1.5, pct_change -1.5 / 229.5}. -/
theorem C5_line_drift :
    compute_line_drift [] = none ∧
    (∀ (s : Snapshot) (rest : List Snapshot),
      ∃ d, compute_line_drift (s :: rest) = some d ∧
        d.open_ = s.line_value ∧
        d.current = ((s :: rest).getLast (List.cons_ne_nil s rest)).line_value ∧
        d.drift = d.current - d.open_ ∧
        d.pct_change = if d.open_ = 0 then 0 else d.drift / d.open_) ∧
    compute_line_drift
        [⟨"MODEL_DEMO_001", "BookA", "total", 229.5, -110⟩,
         ⟨"MODEL_DEMO_001", "BookA", "total", 228, -110⟩] =
      some { open_ := 229.5, current := 228, drift := -1.5, pct_change := -1.5 / 229.5 } := by
  refine ⟨rfl, fun s rest => ⟨_, rfl, rfl, rfl, rfl, ?_⟩, ?_⟩
  · by_cases h : s.line_value = 0 <;> simp [h]
  · norm_num [compute_line_drift, List.getLast]

/-- C6: bot.american_to_decimal returns none for an absent input and
for one the int conversion rejects; every integer o converts to a
decimal price of at least 1, namely 1 + 100 / |o| for negative o and
1 + o / 100 otherwise, with -110 ↦ 21/11 (≈ 1.9091) and 150 ↦ 5/2. -/
theorem C6_american_to_decimal :
    american_to_decimal none = none ∧
    american_to_decimal (some none) = none ∧
    (∀ o : ℤ, ∃ d : ℚ, american_to_decimal (some (some o)) = some d ∧
      (o < 0 → d = 1 + 100 / (o.natAbs : ℚ)) ∧
      (0 ≤ o → d = 1 + (o : ℚ) / 100) ∧ 1 ≤ d) ∧
    american_to_decimal (some (some (-110))) = some (21 / 11) ∧
    american_to_decimal (some (some 150)) = some (5 / 2) := by
  refine ⟨rfl, rfl, fun o => ?_, by norm_num [american_to_decimal],
    by norm_num [american_to_decimal]⟩
  have hconv : american_to_decimal (some (some o)) =
      if o < 0 then some (1 + 100 / (o.natAbs : ℚ))
      else some (1 + (o : ℚ) / 100) := rfl
  rw [hconv]
  split_ifs with h
  · refine ⟨_, rfl, fun _ => rfl, fun h0 => absurd h (not_lt.mpr h0), ?_⟩
    have : (0 : ℚ) ≤ 100 / (o.natAbs : ℚ) := by positivity
    linarith
  · refine ⟨_, rfl, fun h0 => absurd h0 h, fun _ => rfl, ?_⟩
    have : (0 : ℚ) ≤ (o : ℚ) / 100 := by
      have : (0 : ℚ) ≤ (o : ℚ) := by exact_mod_cast not_lt.mp h
      positivity
    linarith

/-- C6 (witness): the price quoted for -110, extracted concretely with
its lower bound. -/
theorem C6_witness :
    ∃ d : ℚ, american_to_decimal (some (some (-110))) = some d ∧ 1 ≤ d := by
  obtain ⟨d, hd, -, -, h1⟩ := C6_american_to_decimal.2.2.1 (-110)
  exact ⟨d, hd, h1⟩

/-- C7: in bot.probability_over, whenever the prop line has a
non-positive ceiling, the Poisson CDF is summed over the empty range
range (0, ⌈L⌉), so P(over) = 1 - 0 = 1 exactly, for every positive
expected rate. -/
theorem C7_over_certain (L : ℚ) (lam : ℝ) (hlam : 0 < lam) (hL : ⌈L⌉ ≤ 0) :
    probability_over L lam = 1 := by
  unfold probability_over poisson_cdf
  rw [Int.sub_add_cancel, Int.toNat_of_nonpos hL]
  simp

/-- C7 (witness): at line 0 and rate 1 the hypotheses hold and the over
probability is exactly 1. -/
theorem C7_witness : (0 : ℝ) < 1 ∧ probability_over 0 1 = 1 :=
  ⟨one_pos, C7_over_certain 0 1 one_pos (by norm_num)⟩

/-- C9: injuries.redistribute_minutes never reads its box_df or
team_code arguments — calls differing only in those arguments return
identical outputs, so the injury feed is applied to matching player_ids
on every team, with no per-team scoping. -/
theorem C9_no_team_scoping (proj : List ProjRow) (feed : List InjuryEntry)
    (box₁ box₂ : List BoxScoreRow) (tc₁ tc₂ : String) :
    redistribute_minutes proj box₁ feed tc₁ = redistribute_minutes proj box₂ feed tc₂ :=
  rfl

/-- A feed entry that matches no row status-adjusts nothing. -/
theorem aux_fold_no_adjust (feed : List InjuryEntry) (r : ProjRow)
    (h : ∀ inj ∈ feed, inj.player_id = r.player_id →
      inj.status ≠ "OUT" ∧ inj.status ≠ "QUESTIONABLE") :
    feed.foldl (fun s inj => apply_injury inj s) r = r := by
  induction feed with
  | nil => rfl
  | cons inj rest ih =>
    have hstep : apply_injury inj r = r := by
      by_cases hpid : r.player_id = inj.player_id
      · obtain ⟨h₁, h₂⟩ := h inj (List.mem_cons_self inj rest) hpid.symm
        exact aux_apply_injury_other_status inj r h₁ h₂
      · exact aux_apply_injury_other inj r hpid
    show rest.foldl _ (apply_injury inj r) = r
    rw [hstep]
    exact ih fun i hi => h i (List.mem_cons_of_mem inj hi)

/-- A QUESTIONABLE entry whose feed dict has no probability key scales
by the default 1.0 and so leaves the row unchanged. -/
theorem aux_apply_questionable_default (inj : InjuryEntry) (r : ProjRow)
    (hq : inj.status = "QUESTIONABLE") (hp : inj.probability = none) :
    apply_injury inj r = r := by
  unfold apply_injury
  rw [hq, hp]
  cases r
  split <;> simp

/-- C1 (code bug): main_pipeline.run_full_model does not recover an
undefined scoring standard deviation.  On a box-score frame whose
team-game grouping has a single row, the pandas ddof-1 std is NaN, the
Python expression `std or 9.0` keeps NaN because NaN is truthy, and `game_std <= 0` is
False for NaN, so z and p_over are NaN — not the claimed well-defined
p_over ∈ [0, 1] via the 9.0 fallback.  By contrast a defined-but-zero
std (two identical team-games) is falsy and does get the fallback,
giving game_std = √2 · 9, i.e. game_std² = 2 · 9². -/
theorem C1_undefined_std_not_recovered :
    pOverIsNaN [⟨0, 11, "Leadoff Star", "LAL", "G", 30, 12, 110⟩] = true ∧
    pOverIsNaN [⟨0, 11, "Leadoff Star", "LAL", "G", 30, 12, 110⟩,
                ⟨1, 11, "Leadoff Star", "LAL", "G", 30, 12, 110⟩] = false ∧
    gameStdSq (teamPtsPerTeamGame
      [⟨0, 11, "Leadoff Star", "LAL", "G", 30, 12, 110⟩,
       ⟨1, 11, "Leadoff Star", "LAL", "G", 30, 12, 110⟩]) = some (2 * 9 ^ 2) := by
  have hkeys : teamGameKeys
      [⟨0, 11, "Leadoff Star", "LAL", "G", 30, 12, 110⟩,
       ⟨1, 11, "Leadoff Star", "LAL", "G", 30, 12, 110⟩] = [(0, "LAL"), (1, "LAL")] := by
    decide
  have hsample : teamPtsPerTeamGame
      [⟨0, 11, "Leadoff Star", "LAL", "G", 30, 12, 110⟩,
       ⟨1, 11, "Leadoff Star", "LAL", "G", 30, 12, 110⟩] = [110, 110] := by
    rw [teamPtsPerTeamGame, hkeys]
    simp +decide [mean, List.filter_cons, List.filter_nil]
  refine ⟨?_, ?_, ?_⟩
  · norm_num [pOverIsNaN, gameStdSq, stdSq, teamPtsPerTeamGame, teamGameKeys, mean,
      List.dedup]
  · simp only [pOverIsNaN, hsample]
    norm_num [gameStdSq, stdSq, sampleVar, mean]
  · rw [hsample]
    norm_num [gameStdSq, stdSq, sampleVar, mean]

/-- C3: after injuries.redistribute_minutes with a feed containing one
entry, every projection row whose player_id the entry matches has
proj_min 0 if the status is OUT (whatever the probability and input
minutes), input proj_min times the supplied probability if the status
is QUESTIONABLE, and is untouched under any other status. -/
theorem C3_injury_statuses (proj : List ProjRow) (box : List BoxScoreRow)
    (tc : String) (inj : InjuryEntry) :
    List.Forall₂ (fun r r' =>
        (r.player_id = inj.player_id ∧ inj.status = "OUT" → r'.proj_min = 0) ∧
        (r.player_id = inj.player_id ∧ inj.status = "QUESTIONABLE" →
          r'.proj_min = r.proj_min * inj.probability.getD 1) ∧
        (r.player_id = inj.player_id ∧ inj.status ≠ "OUT" ∧
          inj.status ≠ "QUESTIONABLE" → r' = r))
      proj (redistribute_minutes proj box [inj] tc) := by
  rw [aux_redistribute_eq_map]
  apply aux_forall₂_map_self
  intro r _
  show (_ → (apply_injury inj r).proj_min = 0) ∧
    (_ → (apply_injury inj r).proj_min = r.proj_min * inj.probability.getD 1) ∧
    (_ → apply_injury inj r = r)
  unfold apply_injury
  refine ⟨fun ⟨hpid, hout⟩ => ?_, fun ⟨hpid, hq⟩ => ?_, fun ⟨hpid, hno, hnq⟩ => ?_⟩
  · rw [if_pos hpid, if_pos hout]
  · rw [if_pos hpid, if_neg (hq ▸ by decide), if_pos hq]
  · rw [if_pos hpid, if_neg hno, if_neg hnq]

/-- C3 (witness): the feed entry (player 11, QUESTIONABLE, probability 0.7) scales
the projected 30 minutes to exactly 21. -/
theorem C3_witness :
    List.Forall₂ (fun r r' =>
        (r.player_id = (⟨11, "QUESTIONABLE", some 0.7⟩ : InjuryEntry).player_id ∧
          (⟨11, "QUESTIONABLE", some 0.7⟩ : InjuryEntry).status = "OUT" →
          r'.proj_min = 0) ∧
        (r.player_id = (⟨11, "QUESTIONABLE", some 0.7⟩ : InjuryEntry).player_id ∧
          (⟨11, "QUESTIONABLE", some 0.7⟩ : InjuryEntry).status = "QUESTIONABLE" →
          r'.proj_min = r.proj_min *
            (⟨11, "QUESTIONABLE", some 0.7⟩ : InjuryEntry).probability.getD 1) ∧
        (r.player_id = (⟨11, "QUESTIONABLE", some 0.7⟩ : InjuryEntry).player_id ∧
          (⟨11, "QUESTIONABLE", some 0.7⟩ : InjuryEntry).status ≠ "OUT" ∧
          (⟨11, "QUESTIONABLE", some 0.7⟩ : InjuryEntry).status ≠ "QUESTIONABLE" →
          r' = r))
      [⟨11, "Leadoff Star", "LAL", "G", 30⟩]
      (redistribute_minutes [⟨11, "Leadoff Star", "LAL", "G", 30⟩] []
        [⟨11, "QUESTIONABLE", some 0.7⟩] "LAL") ∧
    (redistribute_minutes [⟨11, "Leadoff Star", "LAL", "G", 30⟩] []
        [⟨11, "QUESTIONABLE", some 0.7⟩] "LAL").map (fun r => r.proj_min) = [21] :=
  ⟨C3_injury_statuses [⟨11, "Leadoff Star", "LAL", "G", 30⟩] [] "LAL"
      ⟨11, "QUESTIONABLE", some 0.7⟩,
    by simp +decide only [redistribute_minutes, apply_injury, List.foldl, List.map]
       norm_num⟩

/-- C10: injuries.redistribute_minutes is a per-row frame adjustment:
it keeps the player set and every column but proj_min (row for row);
a row none of whose matching feed entries has status OUT or
QUESTIONABLE is returned unchanged; deleting a feed entry matching no
projection row leaves the whole result unchanged; and a single
QUESTIONABLE entry carrying no probability key scales by the default
1.0, returning the frame unchanged. -/
theorem C10_frame_conditions (proj : List ProjRow) (box : List BoxScoreRow)
    (tc : String) (feed : List InjuryEntry) :
    List.Forall₂ (fun r r' => r'.player_id = r.player_id ∧ r'.name = r.name ∧
        r'.team = r.team ∧ r'.pos = r.pos)
      proj (redistribute_minutes proj box feed tc) ∧
    List.Forall₂ (fun r r' =>
        (∀ inj ∈ feed, inj.player_id = r.player_id →
          inj.status ≠ "OUT" ∧ inj.status ≠ "QUESTIONABLE") → r' = r)
      proj (redistribute_minutes proj box feed tc) ∧
    (∀ feed₁ inj feed₂, feed = feed₁ ++ inj :: feed₂ →
      (∀ r ∈ proj, r.player_id ≠ inj.player_id) →
      redistribute_minutes proj box feed tc =
        redistribute_minutes proj box (feed₁ ++ feed₂) tc) ∧
    (∀ inj : InjuryEntry, inj.status = "QUESTIONABLE" → inj.probability = none →
      redistribute_minutes proj box [inj] tc = proj) := by
  refine ⟨?_, ?_, ?_, ?_⟩
  · rw [aux_redistribute_eq_map]
    exact aux_forall₂_map_self fun r _ => aux_fold_injury_fields feed r
  · rw [aux_redistribute_eq_map]
    apply aux_forall₂_map_self
    intro r _ hnone
    exact aux_fold_no_adjust feed r hnone
  · intro feed₁ inj feed₂ hfeed hun
    rw [hfeed, aux_redistribute_eq_map, aux_redistribute_eq_map]
    apply List.map_congr_left
    intro r hr
    rw [List.foldl_append, List.foldl_append, List.foldl_cons,
      aux_apply_injury_other inj _
        (by rw [(aux_fold_injury_fields feed₁ r).1]; exact hun r hr)]
  · intro inj hq hp
    rw [aux_redistribute_eq_map]
    have : ∀ r ∈ proj, [inj].foldl (fun s i => apply_injury i s) r = id r :=
      fun r _ => aux_apply_questionable_default inj r hq hp
    rw [List.map_congr_left this, List.map_id]

/-- C10 (witness): a lone QUESTIONABLE entry without a probability key
leaves a concrete one-row projection frame exactly as it was. -/
theorem C10_witness :
    redistribute_minutes [⟨11, "Leadoff Star", "LAL", "G", 30⟩] []
        [⟨11, "QUESTIONABLE", none⟩] "LAL" =
      [⟨11, "Leadoff Star", "LAL", "G", 30⟩] :=
  (C10_frame_conditions [⟨11, "Leadoff Star", "LAL", "G", 30⟩] [] "LAL"
      [⟨11, "QUESTIONABLE", none⟩]).2.2.2 ⟨11, "QUESTIONABLE", none⟩ rfl rfl

/-- Sorting by date permutes the frame. -/
theorem aux_sortByDate_perm (box : List BoxScoreRow) : (sortByDate box).Perm box :=
  List.mergeSort_perm box _

/-- A player_id appears among the projection keys exactly when it
appears in the frame. -/
theorem aux_mem_pids (box : List BoxScoreRow) (pid : ℤ) :
    pid ∈ pidsByLastGame box ↔ pid ∈ box.map (·.player_id) := by
  unfold pidsByLastGame
  rw [List.mem_dedup]
  exact ((aux_sortByDate_perm box).map (·.player_id)).mem_iff

/-- The group of a player in the sorted frame has as many rows as the player
has in the unsorted frame. -/
theorem aux_playerRows_length (box : List BoxScoreRow) (pid : ℤ) :
    (playerRowsSorted box pid).length =
      (box.filter (fun r => decide (r.player_id = pid))).length :=
  ((aux_sortByDate_perm box).filter _).length_eq

/-- A player present in the frame has a nonempty group. -/
theorem aux_playerRows_ne_nil (box : List BoxScoreRow) (pid : ℤ)
    (h : pid ∈ box.map (·.player_id)) : playerRowsSorted box pid ≠ [] := by
  rw [List.mem_map] at h
  obtain ⟨r, hr, hpid⟩ := h
  have hr' : r ∈ sortByDate box := (aux_sortByDate_perm box).mem_iff.mpr hr
  exact List.ne_nil_of_mem (List.mem_filter.mpr ⟨hr', by simp [hpid]⟩)

/-- Rounding 20 to one decimal is 20. -/
theorem aux_round1_twenty : round1 20 = 20 := by
  norm_num [round1, roundHalfEven]

/-- Membership description of the minutes-projection output. -/
theorem aux_calc_minutes_mem (box : List BoxScoreRow) (r : ProjRow) :
    r ∈ calculate_projected_minutes box ↔
      ∃ pid ∈ pidsByLastGame box, ∃ last,
        (playerRowsSorted box pid).getLast? = some last ∧
        r = { player_id := pid, name := last.player_name, team := last.team,
              pos := last.pos,
              proj_min := round1 ((rollingLast
                ((playerRowsSorted box pid).map (·.minutes))).getD 20) } := by
  unfold calculate_projected_minutes
  rw [List.mem_filterMap]
  constructor
  · rintro ⟨pid, hpid, hf⟩
    cases hgl : (playerRowsSorted box pid).getLast? with
    | none => rw [hgl] at hf; cases hf
    | some last =>
      rw [hgl] at hf
      exact ⟨pid, hpid, last, hgl, (Option.some_inj.mp hf).symm⟩
  · rintro ⟨pid, hpid, last, hgl, rfl⟩
    exact ⟨pid, hpid, by rw [hgl]; rfl⟩

/-- C4: in minutes_model.calculate_projected_minutes, a player with no
row in the window is absent from the output, while a player with at
least one but fewer than ten rows appears and receives exactly the
default projection of 20.0 minutes (their ten-game rolling mean being
NaN on every row). -/
theorem C4_rolling_default (box : List BoxScoreRow) (pid : ℤ) :
    (pid ∉ box.map (·.player_id) →
      ∀ r ∈ calculate_projected_minutes box, r.player_id ≠ pid) ∧
    (pid ∈ box.map (·.player_id) →
      (box.filter (fun r => decide (r.player_id = pid))).length < 10 →
      (∃ r ∈ calculate_projected_minutes box, r.player_id = pid) ∧
      ∀ r ∈ calculate_projected_minutes box, r.player_id = pid → r.proj_min = 20) := by
  constructor
  · intro habsent r hr hcontra
    rw [aux_calc_minutes_mem] at hr
    obtain ⟨pid', hpid', last, hgl, rfl⟩ := hr
    have : pid' = pid := hcontra
    subst this
    exact habsent ((aux_mem_pids box pid').mp hpid')
  · intro hmem hcount
    constructor
    · have hpids : pid ∈ pidsByLastGame box := (aux_mem_pids box pid).mpr hmem
      have hne := aux_playerRows_ne_nil box pid hmem
      obtain ⟨last, hgl⟩ := Option.isSome_iff_exists.mp (List.getLast?_isSome.mpr hne)
      exact ⟨_, (aux_calc_minutes_mem box _).mpr ⟨pid, hpids, last, hgl, rfl⟩, rfl⟩
    · intro r hr hrid
      rw [aux_calc_minutes_mem] at hr
      obtain ⟨pid', hpid', last, hgl, rfl⟩ := hr
      have hpp : pid' = pid := hrid
      subst hpp
      have hlen : ((playerRowsSorted box pid').map (·.minutes)).length < 10 := by
        rw [List.length_map, aux_playerRows_length]
        exact hcount
      show round1 ((rollingLast _).getD 20) = 20
      rw [rollingLast, if_pos hlen]
      exact aux_round1_twenty

/-- C4 (witness): a one-game player gets the 20.0-minute default. -/
theorem C4_witness :
    (∃ r ∈ calculate_projected_minutes
        [⟨0, 7, "Backup Wing", "LAL", "G", 31, 12, 110⟩], r.player_id = 7) ∧
    ∀ r ∈ calculate_projected_minutes
        [⟨0, 7, "Backup Wing", "LAL", "G", 31, 12, 110⟩],
      r.player_id = 7 → r.proj_min = 20 :=
  (C4_rolling_default [⟨0, 7, "Backup Wing", "LAL", "G", 31, 12, 110⟩] 7).2
    (by decide) (by decide)

/-- Membership description of the team-ratings output. -/
theorem aux_team_ratings_mem (df : List TeamGameRow) (r : TeamRating) :
    r ∈ estimate_team_ratings df ↔
      ∃ t ∈ teamsOf df,
        r = { team := t, OffRtg := offRtgOf df t,
              DefRtg := 100 + (leagueAvgOffRtg df - offRtgOf df t),
              Poss := possAvgOf df t } := by
  unfold estimate_team_ratings
  rw [List.mem_map]
  constructor
  · rintro ⟨t, ht, rfl⟩
    exact ⟨t, ht, rfl⟩
  · rintro ⟨t, ht, rfl⟩
    exact ⟨t, ht, rfl⟩

/-- C8: team_ratings.estimate_team_ratings assigns OffRtg =
OffPts / (Poss / 100) and DefRtg = 100 + (league-average OffRtg −
OffRtg), so two teams entering with identical average team_pts and
identical average possessions leave with identical OffRtg and
identical DefRtg. -/
theorem C8_equal_ratings (df : List TeamGameRow) (t₁ t₂ : String)
    (hpts : offPtsOf df t₁ = offPtsOf df t₂)
    (hposs : possAvgOf df t₁ = possAvgOf df t₂) :
    ∀ r₁ ∈ estimate_team_ratings df, ∀ r₂ ∈ estimate_team_ratings df,
      r₁.team = t₁ → r₂.team = t₂ →
      r₁.OffRtg = r₂.OffRtg ∧ r₁.DefRtg = r₂.DefRtg := by
  have hoff : offRtgOf df t₁ = offRtgOf df t₂ := by
    unfold offRtgOf
    rw [hpts, hposs]
  intro r₁ h₁ r₂ h₂ ht₁ ht₂
  rw [aux_team_ratings_mem] at h₁ h₂
  obtain ⟨s₁, hs₁, rfl⟩ := h₁
  obtain ⟨s₂, hs₂, rfl⟩ := h₂
  have e₁ : s₁ = t₁ := ht₁
  have e₂ : s₂ = t₂ := ht₂
  subst e₁
  subst e₂
  exact ⟨hoff, by show 100 + _ = 100 + _; rw [hoff]⟩

/-- C8 (witness): on the two-team fixture both hypotheses hold and the
two output rows carry equal OffRtg and equal DefRtg. -/
theorem C8_witness :
    ∃ r₁ ∈ estimate_team_ratings dfC8, ∃ r₂ ∈ estimate_team_ratings dfC8,
      r₁.team = teamA ∧ r₂.team = teamB ∧
      r₁.OffRtg = r₂.OffRtg ∧ r₁.DefRtg = r₂.DefRtg := by
  have hteams : teamsOf dfC8 = [teamA, teamB] := by decide
  have hpts : offPtsOf dfC8 teamA = offPtsOf dfC8 teamB := by
    simp +decide [offPtsOf, teamRowsOf, mean, dfC8, teamA, teamB,
      List.filter_cons, List.filter_nil]
  have hposs : possAvgOf dfC8 teamA = possAvgOf dfC8 teamB := by
    simp +decide [possAvgOf, teamRowsOf, mean, possOf, dfC8, teamA, teamB,
      List.filter_cons, List.filter_nil]
  have hmem₁ : ({ team := teamA,
                  OffRtg := offRtgOf dfC8 teamA,
                  DefRtg := 100 + (leagueAvgOffRtg dfC8 - offRtgOf dfC8 teamA),
                  Poss := possAvgOf dfC8 teamA } : TeamRating) ∈
      estimate_team_ratings dfC8 :=
    (aux_team_ratings_mem dfC8 _).mpr ⟨teamA, by rw [hteams]; decide, rfl⟩
  have hmem₂ : ({ team := teamB,
                  OffRtg := offRtgOf dfC8 teamB,
                  DefRtg := 100 + (leagueAvgOffRtg dfC8 - offRtgOf dfC8 teamB),
                  Poss := possAvgOf dfC8 teamB } : TeamRating) ∈
      estimate_team_ratings dfC8 :=
    (aux_team_ratings_mem dfC8 _).mpr ⟨teamB, by rw [hteams]; decide, rfl⟩
  exact ⟨_, hmem₁, _, hmem₂, rfl, rfl,
    C8_equal_ratings dfC8 teamA teamB hpts hposs _ hmem₁ _ hmem₂ rfl rfl⟩

end PropBot
